import Mathlib

/-!
# psych-pkg: a shallow embedding of the error, websocket, http and util packages

Go values are embedded as follows.

* `error` interface values are `Option Error` (`none` is the nil interface);
  the constructors of `Error` are the dynamic types that occur in the packages.
* Strings are Lean strings; texts are sequences of Unicode characters
  (well-formed UTF-8).
* Stateful collaborators (the websocket connection, the HTTP response body, the
  logger, the hertz request context) are explicit state: every call is appended
  to a trace, and the answers of the transport are fields of a scripted
  connection.
* `int` is a 64-bit signed integer, `uint32` a natural number below `2^32`.
-/

namespace PsychPkg

/-! ## errorx -/

/-- The constant `unknowCode` of errorx.go. -/
def unknowCode : Int := 999

/-- The struct `Errorx` of errorx.go. -/
structure Errorx where
  Code : Int
  Msg : String
  deriving DecidableEq, Repr

/-- Dynamic error values.  `errorxVal` is an `Errorx` held by value in the
interface, `errorxPtr` a `*Errorx`; `closeError` is gorilla's `*CloseError`;
`errorString` is what `errors.New` and `fmt.Errorf` without `%w` build (and any
other foreign error, known by its text); `wrapError` is `fmt.Errorf` with `%w`;
the two sentinels are the package variables of helper.go, compared by
identity. -/
inductive Error where
  | errorxVal (e : Errorx)
  | errorxPtr (e : Errorx)
  | closeError (code : Int) (text : String)
  | errorString (text : String)
  | wrapError (msg : String) (err : Error)
  | normalCloseErr
  | abnormalCloseErr
  deriving DecidableEq, Repr

/-- Decimal text of an integer, as the verb `%d` and `strconv.AppendInt` print it. -/
def itoa (n : Int) : String :=
  match n with
  | Int.ofNat k => Nat.repr k
  | Int.negSucc k => "-" ++ Nat.repr (k + 1)

/-- Method `Errorx.Error`: `fmt.Sprintf("code=%d, msg=%s", e.Code, e.Msg)`. -/
def Errorx.Error (e : Errorx) : String :=
  "code=" ++ itoa e.Code ++ ", msg=" ++ e.Msg

/-- The name gorilla's `CloseError.Error` prints after the code. -/
def closeCodeName (code : Int) : String :=
  if code = 1000 then " (normal)"
  else if code = 1001 then " (going away)"
  else if code = 1002 then " (protocol error)"
  else if code = 1003 then " (unsupported data)"
  else if code = 1005 then " (no status)"
  else if code = 1006 then " (abnormal closure)"
  else if code = 1007 then " (invalid payload data)"
  else if code = 1008 then " (policy violation)"
  else if code = 1009 then " (message too big)"
  else if code = 1010 then " (mandatory extension missing)"
  else if code = 1011 then " (internal server error)"
  else if code = 1015 then " (TLS handshake error)"
  else ""

/-- The method `Error()` of each dynamic error type (named `errorText` here,
since `Error` is the type). -/
def Error.errorText : Error → String
  | .errorxVal e => e.Error
  | .errorxPtr e => e.Error
  | .closeError code text =>
      "websocket: close " ++ itoa code ++ closeCodeName code ++
        (if text = "" then "" else ": " ++ text)
  | .errorString text => text
  | .wrapError msg _ => msg
  | .normalCloseErr => "[WSClient] normal close error"
  | .abnormalCloseErr => "[WSClient] abnormal close error"

/-- The loop of Go's `errors.As` for a target of type `Errorx`: walk the
`Unwrap` chain and stop at the first error whose dynamic type is assignable to
`Errorx`.  A `*Errorx` is not assignable to `Errorx`, has no `As` method and no
`Unwrap`, so the walk ends there without a match. -/
def Error.findErrorx : Error → Option Errorx
  | .errorxVal e => some e
  | .wrapError _ inner => inner.findErrorx
  | _ => none

/-- Go's `errors.As(err, &ex)` with `var ex Errorx`: false on a nil error;
the result is the value stored in `ex` on a match. -/
def errorsAsErrorx (err : Option Error) : Option Errorx :=
  match err with
  | none => none
  | some e => e.findErrorx

/-- One entry of the logger `logx`: the level and the arguments. -/
inductive LogEntry where
  | error (label : String) (err : Option Error)
  | errorText (label : String) (text : String)
  | ctxError (format : String) (text : String)
  | ctxInfo (format : String) (err : Option Error)
  deriving DecidableEq, Repr

/-- Whether an entry is of error severity. -/
def LogEntry.isError : LogEntry → Bool
  | .error _ _ => true
  | .errorText _ _ => true
  | .ctxError _ _ => true
  | .ctxInfo _ _ => false

/-- A run of a Go function that may panic. -/
inductive Outcome (α : Type) where
  | returned (value : α)
  | panicked (reason : String)
  deriving DecidableEq, Repr

/-- Function `EndE` of errorx.go: log, then return `ex` when `errors.As` matched and a
fresh `&Errorx` with code 999 and the error's text otherwise.  On a nil `err`
the call `err.Error()` dereferences the nil interface. -/
def EndE (err : Option Error) : Outcome (Error × List LogEntry) :=
  let log := [LogEntry.error "error: " err]
  match errorsAsErrorx err with
  | some ex => .returned (.errorxVal ex, log)
  | none =>
    match err with
    | none => .panicked "nil pointer dereference"
    | some e => .returned (.errorxPtr { Code := unknowCode, Msg := e.errorText }, log)

/-- Function `EndM` of errorx.go. -/
def EndM (_err : Option Error) (msg : String) : Error × List LogEntry :=
  (.errorxPtr { Code := unknowCode, Msg := msg }, [LogEntry.errorText "error: " msg])

/-- Function `EndX` of errorx.go. -/
def EndX (_err : Option Error) (code : Int) (msg : String) : Error × List LogEntry :=
  (.errorxPtr { Code := code, Msg := msg }, [LogEntry.errorText "error: " msg])

/-- The `Errorx` an error value holds, by value or by pointer. -/
def Error.asErrorx? : Error → Option Errorx
  | .errorxVal e => some e
  | .errorxPtr e => some e
  | _ => none

/-! ## wsx: the websocket client -/

/-- Call `websocket.IsCloseError(err, codes...)` of gorilla: a type assertion to
`*CloseError` followed by a search of the code. -/
def IsCloseError (err : Option Error) (codes : List Int) : Bool :=
  match err with
  | some (.closeError code _) => codes.contains code
  | _ => false

/-- Call `websocket.IsUnexpectedCloseError(err, expectedCodes...)` of gorilla. -/
def IsUnexpectedCloseError (err : Option Error) (expectedCodes : List Int) : Bool :=
  match err with
  | some (.closeError code _) => !expectedCodes.contains code
  | _ => false

/-- Close codes and message types of gorilla/websocket. -/
def CloseNormalClosure : Int := 1000
def CloseGoingAway : Int := 1001
def CloseNoStatusReceived : Int := 1005

def TextMessage : Int := 1
def BinaryMessage : Int := 2
def CloseMessage : Int := 8
def PingMessage : Int := 9

/-- The payload `websocket.FormatCloseMessage(1000, "normal close")`: the code
in two big-endian bytes, then the reason text. -/
def NormalCLoseMsg : List Nat :=
  [1000 / 256, 1000 % 256] ++ "normal close".data.map Char.toNat

/-- Calls on the underlying `*websocket.Conn`, in the order they are made.  The
deadline of a control write (`time.Now().Add(DefaultTimeout)`, three seconds)
is a wall-clock value and is not recorded. -/
inductive ConnCall where
  | readMessage
  | readJSON
  | writeMessage (mt : Int) (data : List Nat)
  | writeJSON
  | writeControl (mt : Int) (data : List Nat)
  | close
  deriving DecidableEq, Repr

/-- What the transport answers to each call. -/
structure Conn where
  readMessage : Int × List Nat × Option Error
  readJSON : Option Error
  writeMessage : Int → List Nat → Option Error
  writeJSON : Option Error
  writeControl : Int → List Nat → Option Error
  close : Option Error

/-- The client of helper.go together with the observable effects of its
methods: the calls made on `conn` and the entries written to the log.  The
write lock orders concurrent writers and has no effect on a sequential run. -/
structure WSClient where
  conn : Conn
  closed : Bool
  calls : List ConnCall
  log : List LogEntry

/-- Constructor `NewWSClient` of helper.go. -/
def NewWSClient (conn : Conn) : WSClient :=
  { conn := conn, closed := false, calls := [], log := [] }

/-- Method `classifyErr` of helper.go. -/
def WSClient.classifyErr (ws : WSClient) (err : Option Error) : Option Error × WSClient :=
  if err = none then
    (none, ws)
  else if IsCloseError err [CloseNormalClosure, CloseGoingAway, CloseNoStatusReceived] then
    (some .normalCloseErr, { ws with closed := true })
  else if IsUnexpectedCloseError err
      [CloseNormalClosure, CloseGoingAway, CloseNoStatusReceived] then
    (some .abnormalCloseErr,
      { ws with log := ws.log ++ [LogEntry.error "[WSClient] close error" err], closed := true })
  else
    (err, ws)

/-- Method `Read`. -/
def WSClient.Read (ws : WSClient) : (Int × List Nat × Option Error) × WSClient :=
  let r := ws.conn.readMessage
  let ws1 := { ws with calls := ws.calls ++ [ConnCall.readMessage] }
  let c := ws1.classifyErr r.2.2
  ((r.1, r.2.1, c.1), c.2)

/-- Method `ReadJSON`. -/
def WSClient.ReadJSON (ws : WSClient) : Option Error × WSClient :=
  let ws1 := { ws with calls := ws.calls ++ [ConnCall.readJSON] }
  ws1.classifyErr ws.conn.readJSON

/-- Method `Write`. -/
def WSClient.Write (ws : WSClient) (mt : Int) (data : List Nat) : Option Error × WSClient :=
  let err := ws.conn.writeMessage mt data
  let ws1 := { ws with calls := ws.calls ++ [ConnCall.writeMessage mt data] }
  ws1.classifyErr err

/-- Method `WriteJSON`. -/
def WSClient.WriteJSON (ws : WSClient) : Option Error × WSClient :=
  let ws1 := { ws with calls := ws.calls ++ [ConnCall.writeJSON] }
  ws1.classifyErr ws.conn.writeJSON

/-- Method `WritePing`: the result of `WriteControl` is returned as it is. -/
def WSClient.WritePing (ws : WSClient) : Option Error × WSClient :=
  (ws.conn.writeControl PingMessage [],
    { ws with calls := ws.calls ++ [ConnCall.writeControl PingMessage []] })

/-- Method `Close`. -/
def WSClient.Close (ws : WSClient) : Option Error × WSClient :=
  if ws.closed = false then
    let err := ws.conn.writeControl CloseMessage NormalCLoseMsg
    let calls1 := ws.calls ++ [ConnCall.writeControl CloseMessage NormalCLoseMsg]
    let log1 :=
      if err ≠ none then ws.log ++ [LogEntry.error "[WSClient] send close msg error" err]
      else ws.log
    (ws.conn.close,
      { conn := ws.conn, closed := true, calls := calls1 ++ [ConnCall.close], log := log1 })
  else
    (none, ws)

/-- Method `IsClosed`. -/
def WSClient.IsClosed (ws : WSClient) : Bool := ws.closed

/-- The error-level entries a method appended to the log. -/
def newErrorEntries (before after : WSClient) : List LogEntry :=
  (after.log.drop before.log.length).filter LogEntry.isError

/-- The transport calls a method made. -/
def newCalls (before after : WSClient) : List ConnCall :=
  after.calls.drop before.calls.length

/-- A connection whose peer has sent a close frame with the given code. -/
def closingConn (code : Int) (text : String) : Conn :=
  { readMessage := (-1, [], some (.closeError code text))
    readJSON := some (.closeError code text)
    writeMessage := fun _ _ => some (.closeError code text)
    writeJSON := some (.closeError code text)
    writeControl := fun _ _ => some (.closeError code text)
    close := none }

/-- A connection on which every call succeeds. -/
def healthyConn : Conn :=
  { readMessage := (TextMessage, [104, 105], none)
    readJSON := none
    writeMessage := fun _ _ => none
    writeJSON := none
    writeControl := fun _ _ => none
    close := none }

/-! ## util -/

/-- A byte slice: `none` is the nil slice. -/
abbrev Bytes := Option (List Nat)

/-- Go's `len` of a slice. -/
def len (data : Bytes) : Nat :=
  match data with
  | none => 0
  | some bs => bs.length

/-- The conversion `uint32(n)` of an `int`. -/
def uint32 (n : Int) : Nat := (n % 2 ^ 32).toNat

/-- The conversion `byte(v)`. -/
def byte (v : Nat) : Nat := v % 2 ^ 8

/-- Call `binary.BigEndian.PutUint32(b, v)` on a slice `b` of four bytes. -/
def PutUint32 (v : Nat) : List Nat :=
  [byte (v >>> 24), byte (v >>> 16), byte (v >>> 8), byte v]

/-- Call `binary.BigEndian.Uint32(b)` on a slice of four bytes. -/
def Uint32 (b0 b1 b2 b3 : Nat) : Nat :=
  (b3 ||| b2 <<< 8 ||| b1 <<< 16 ||| b0 <<< 24) % 2 ^ 32

/-- The conversion `int(v)` of a `uint32` to the 64-bit signed `int`. -/
def intOfUint32 (v : Nat) : Int := ((v : Int) + 2 ^ 63) % 2 ^ 64 - 2 ^ 63

/-- Function `IntToBytes` of lib.go. -/
def IntToBytes (n : Int) : Bytes := some (PutUint32 (uint32 n))

/-- Function `BytesToInt` of lib.go. -/
def BytesToInt (data : Bytes) : Int × Option Error :=
  if len data ≠ 4 ∨ data = none then
    (0, some (.errorString "BytesToInt err"))
  else
    match data with
    | some [b0, b1, b2, b3] => (intOfUint32 (Uint32 b0 b1 b2 b3), none)
    | _ => (0, some (.errorString "BytesToInt err"))

/-- The number a sequence of bytes denotes when read most significant byte
first (the specification side of the encoding). -/
def bigEndianValue (bs : List Nat) : Nat :=
  bs.foldl (fun acc b => acc * 256 + b) 0

/-! ## fmt: format strings without operands -/

/-- The flag characters of a verb. -/
def isFlag (c : Char) : Bool :=
  c = '#' || c = '0' || c = '+' || c = '-' || c = ' '

/-- The flag loop of `doPrintf` when no operand is left: flags are skipped. -/
def skipFlags : List Char → List Char
  | [] => []
  | c :: cs => if isFlag c then skipFlags cs else c :: cs

/-- The digit loop of `parsenum`: the number read so far, whether a digit was
seen, and the text left.  A number above `1e6` abandons the parse and moves to
the end of the format. -/
def parsenumLoop (num : Nat) (isnum : Bool) : List Char → Nat × Bool × List Char
  | [] => (num, isnum, [])
  | c :: cs =>
    if '0' ≤ c ∧ c ≤ '9' then
      if num > 1000000 then (0, false, [])
      else parsenumLoop (num * 10 + (c.toNat - '0'.toNat)) true cs
    else (num, isnum, c :: cs)

/-- Call `parsenum(s, start, end)` on the text from `start` to `end`. -/
def parsenum (s : List Char) : Nat × Bool × List Char :=
  parsenumLoop 0 false s

/-- Call `parseArgNumber(format)` on a text that starts with `[`: the width of the
bracketed index and whether it is a number. -/
def parseArgNumber (s : List Char) : Nat × Bool :=
  if s.length < 3 then (1, false)
  else
    match (s.drop 1).span (fun c => c != ']') with
    | (_, []) => (1, false)
    | (inner, _ :: _) =>
      match parsenum inner with
      | (_, true, []) => (inner.length + 2, true)
      | _ => (inner.length + 2, false)

/-- Method `argNumber` when there is no operand: the text left, `found`, and whether
a bracket was met (which clears `goodArgNum`, no index being in range). -/
def argNumber (s : List Char) : List Char × Bool × Bool :=
  match s with
  | '[' :: _ => ((s.drop (parseArgNumber s).1), (parseArgNumber s).2, true)
  | _ => (s, false, false)

/-- The state of `doPrintf` inside one verb. -/
structure VerbState where
  out : List Char
  rest : List Char
  goodArgNum : Bool
  afterIndex : Bool

/-- The width step of `doPrintf`. -/
def widthStep (st : VerbState) : VerbState :=
  match st.rest with
  | '*' :: cs =>
    { st with out := st.out ++ "%!(BADWIDTH)".data, rest := cs, afterIndex := false }
  | _ =>
    match parsenum st.rest with
    | (_, widPresent, rest) =>
      { st with rest := rest, goodArgNum := st.goodArgNum && !(st.afterIndex && widPresent) }

/-- The precision step of `doPrintf`. -/
def precisionStep (st : VerbState) : VerbState :=
  match st.rest with
  | '.' :: cs =>
    let good := st.goodArgNum && !st.afterIndex
    match argNumber cs with
    | (rest, found, bracket) =>
      match rest with
      | '*' :: cs2 =>
        { out := st.out ++ "%!(BADPREC)".data, rest := cs2,
          goodArgNum := good && !bracket, afterIndex := false }
      | _ =>
        { out := st.out, rest := (parsenum rest).2.2,
          goodArgNum := good && !bracket, afterIndex := found }
  | _ => st

/-- The last index step of `doPrintf`, taken when no index came just before. -/
def indexStep (st : VerbState) : VerbState :=
  if st.afterIndex then st
  else
    match argNumber st.rest with
    | (rest, found, bracket) =>
      { st with rest := rest, goodArgNum := st.goodArgNum && !bracket, afterIndex := found }

/-- The verb step of `doPrintf` with no operand: `%%` prints a percent sign, a
verb after a bad index prints `%!v(BADINDEX)`, any other verb `%!v(MISSING)`,
and a format that ends inside the verb `%!(NOVERB)`. -/
def verbStep (st : VerbState) : List Char × List Char :=
  match st.rest with
  | [] => (st.out ++ "%!(NOVERB)".data, [])
  | verb :: cs =>
    if verb = '%' then (st.out ++ ['%'], cs)
    else if !st.goodArgNum then (st.out ++ "%!".data ++ [verb] ++ "(BADINDEX)".data, cs)
    else (st.out ++ "%!".data ++ [verb] ++ "(MISSING)".data, cs)

/-- One verb of `doPrintf`, from the character after the percent sign: what is
printed and the format left. -/
def formatVerb (s : List Char) : List Char × List Char :=
  match argNumber (skipFlags s) with
  | (rest, found, bracket) =>
    verbStep (indexStep (precisionStep (widthStep
      { out := [], rest := rest, goodArgNum := !bracket, afterIndex := found })))

/-- The loop of `doPrintf(format, nil)`: text up to the next percent sign is
copied, then one verb is processed.  Every turn consumes the percent sign, so
`format.length + 1` turns reach the end of any format. -/
def doPrintf : Nat → List Char → List Char
  | 0, _ => []
  | fuel + 1, format =>
    match format.span (fun c => c != '%') with
    | (text, []) => text
    | (text, _ :: afterPercent) =>
      text ++ (formatVerb afterPercent).1 ++ doPrintf fuel (formatVerb afterPercent).2

/-- Call `fmt.Errorf(format)` with no operand: no `%w` can wrap, so the result
is a plain error with the formatted text. -/
def Errorf (format : String) : Error :=
  .errorString (String.mk (doPrintf (format.length + 1) format.data))

/-- Whether `sub` occurs in `text` as a contiguous run of characters. -/
def containsText (text sub : String) : Bool :=
  text.data.tails.any (fun t => sub.data.isPrefixOf t)

/-! ## httpx: the client -/

/-- Calls on the body of a response, in the order they are made. -/
inductive BodyCall where
  | readAll
  | close
  deriving DecidableEq, Repr

/-- An `*http.Response` with its body: the status, what `io.ReadAll` on the
body yields (the text read and the error that stopped the read, if any), what
`Body.Close` answers, and the calls made on the body so far. -/
structure Response where
  StatusCode : Int
  bodyText : String
  readErr : Option Error
  closeAnswer : Option Error
  bodyCalls : List BodyCall
  deriving DecidableEq, Repr

/-- The struct `StreamReader`: its `reader` field is `resp.Body`. -/
structure StreamReader where
  resp : Response
  deriving DecidableEq, Repr

/-- Method `StreamReader.ReadAll`. -/
def StreamReader.ReadAll (r : StreamReader) : (String × Option Error) × StreamReader :=
  ((r.resp.bodyText, r.resp.readErr),
    { resp := { r.resp with bodyCalls := r.resp.bodyCalls ++ [BodyCall.readAll] } })

/-- Method `StreamReader.Close`. -/
def StreamReader.Close (r : StreamReader) : Option Error × StreamReader :=
  (r.resp.closeAnswer, { resp := { r.resp with bodyCalls := r.resp.bodyCalls ++ [BodyCall.close] } })

/-- The collaborators of `HttpClient.do`: what `json.Marshal` of the request
body, `http.NewRequest` and `Client.Do` answer. -/
structure HttpClient where
  marshal : Option Error
  newRequest : Option Error
  clientDo : Except Error Response

/-- Method `HttpClient.do` (`do` is a reserved word). -/
def HttpClient.doRequest (c : HttpClient) : Except Error Response :=
  match c.marshal with
  | some err => .error (.wrapError ("[httpx]请求体序列化失败: " ++ err.errorText) err)
  | none =>
    match c.newRequest with
    | some err => .error (.wrapError ("创建请求失败: " ++ err.errorText) err)
    | none => c.clientDo

/-- Call `fmt.Sprintf("unexpected status code: %d, response body: %s", status, body)`. -/
def statusErrMsg (status : Int) (body : String) : String :=
  "unexpected status code: " ++ itoa status ++ ", response body: " ++ body

/-- What `Stream` returns, and the response object as `Stream` leaves it. -/
structure StreamResult where
  reader : Option StreamReader
  err : Option Error
  resp : Option Response
  deriving DecidableEq, Repr

/-- Method `HttpClient.Stream`. -/
def HttpClient.Stream (c : HttpClient) : StreamResult :=
  match c.doRequest with
  | .error err =>
    { reader := none, err := some (.wrapError ("发送请求失败: " ++ err.errorText) err),
      resp := none }
  | .ok resp =>
    let reader : StreamReader := { resp := resp }
    if resp.StatusCode < 200 ∨ resp.StatusCode ≥ 300 then
      let read := reader.ReadAll
      let errMsg := statusErrMsg resp.StatusCode read.1.1
      let closed := read.2.Close
      { reader := none, err := some (Errorf errMsg), resp := some closed.2.resp }
    else
      { reader := some reader, err := none, resp := some resp }

/-- A client whose request is delivered and answered by `resp`. -/
def answering (resp : Response) : HttpClient :=
  { marshal := none, newRequest := none, clientDo := .ok resp }

/-- A response with the given status and body, not yet read. -/
def freshResponse (status : Int) (body : String) : Response :=
  { StatusCode := status, bodyText := body, readErr := none, closeAnswer := none,
    bodyCalls := [] }

/-! ## httpx: the hertz post-processing -/

/-- The value a struct field holds, as far as `makeResponse` inspects it. -/
inductive FieldValue where
  | int (n : Int)
  | string (s : String)
  | nilInterface
  | other (isZero : Bool)
  deriving DecidableEq, Repr

/-- A field of the struct `resp` points to: its name, the Go name of its
type, its `json` tag, whether it is exported, and its value. -/
structure StructField where
  Name : String
  typeName : String
  jsonTag : String
  exported : Bool
  value : FieldValue
  deriving DecidableEq, Repr

/-- The argument `resp any` of `PostProcess`, as far as reflection tells its
shapes apart. -/
inductive GoValue where
  | nilValue
  | nilPointer
  | ptrToStruct (fields : List StructField)
  | otherValue
  deriving DecidableEq, Repr

/-- The map `makeResponse` builds: the entries `code` and `msg` and, when
it is not empty, the map under `data`. -/
structure ResponseMap where
  code : Int
  msg : String
  data : Option (List (String × FieldValue))
  deriving DecidableEq, Repr

/-- Call `v.FieldByName(name)`: the first field of that name, if any. -/
def FieldByName (fields : List StructField) (name : String) : Option StructField :=
  fields.find? (fun f => f.Name = name)

/-- Method `reflect.Value.Int`: panics unless the kind is a signed integer. -/
def valueInt (f : Option StructField) : Outcome Int :=
  match f with
  | some { value := .int n, .. } => .returned n
  | _ => .panicked "reflect: call of reflect.Value.Int on non-integer Value"

/-- Method `reflect.Value.String`: the string, or a description of the value. -/
def valueString (f : Option StructField) : String :=
  match f with
  | none => "<invalid Value>"
  | some { value := .string s, .. } => s
  | some g => "<" ++ g.typeName ++ " Value>"

/-- Assignment `data[key] = value` on a map kept as an association list. -/
def mapSet (data : List (String × FieldValue)) (key : String) (value : FieldValue) :
    List (String × FieldValue) :=
  data.filter (fun kv => kv.1 ≠ key) ++ [(key, value)]

/-- The loop of `makeResponse` over the fields: `Interface()` panics on an
unexported field, `IsZero` on the value of a nil interface. -/
def collectData : List StructField → List (String × FieldValue) →
    Outcome (List (String × FieldValue))
  | [], data => .returned data
  | f :: fs, data =>
    if f.jsonTag ≠ "" ∧ f.Name ≠ "Code" ∧ f.Name ≠ "Msg" then
      if f.exported = false then
        .panicked "reflect.Value.Interface: cannot return value obtained from unexported field"
      else
        match f.value with
        | .nilInterface => .panicked "reflect: call of reflect.Value.IsZero on zero Value"
        | .int n => collectData fs (if n = 0 then data else mapSet data f.jsonTag f.value)
        | .string t => collectData fs (if t = "" then data else mapSet data f.jsonTag f.value)
        | .other z => collectData fs (if z then data else mapSet data f.jsonTag f.value)
    else collectData fs data

/-- Function `makeResponse` of httpx.go: `none` is the nil map. -/
def makeResponse (resp : GoValue) : Outcome (Option ResponseMap) :=
  match resp with
  | .ptrToStruct fields =>
    match valueInt (FieldByName fields "Code") with
    | .panicked reason => .panicked reason
    | .returned code =>
      match collectData fields [] with
      | .panicked reason => .panicked reason
      | .returned data =>
        .returned (some
          { code := code, msg := valueString (FieldByName fields "Msg"),
            data := if data.length > 0 then some data else none })
  | _ => .returned none

/-- A response written through the hertz request context. -/
inductive ResponseWrite where
  | json (status : Int) (body : Option ResponseMap)
  | jsonErrorx (status : Int) (body : Errorx)
  | string (status : Int) (text : String)
  deriving DecidableEq, Repr

/-- Status codes of hertz's `consts`. -/
def StatusOK : Int := 200
def StatusInternalServerError : Int := 500

/-- The run of `PostProcess`: the responses written through `c`, in order, and
how the call ended.  The header injection and the info log at its head write
no response and do not branch. -/
structure PostProcessRun where
  responses : List ResponseWrite
  outcome : Outcome Unit
  deriving DecidableEq, Repr

/-- The part of `PostProcess` after the `if err == nil` block. -/
def PostProcess.errorPart (written : List ResponseWrite) (err : Option Error) :
    PostProcessRun :=
  match errorsAsErrorx err with
  | some ex =>
    { responses := written ++ [.jsonErrorx StatusOK { Code := ex.Code, Msg := ex.Msg }],
      outcome := .returned () }
  | none =>
    match err with
    | none => { responses := written, outcome := .panicked "nil pointer dereference" }
    | some e =>
      { responses := written ++ [.string StatusInternalServerError e.errorText],
        outcome := .returned () }

/-- Function `PostProcess` of httpx.go. -/
def PostProcess (resp : GoValue) (err : Option Error) : PostProcessRun :=
  if err = none then
    match makeResponse resp with
    | .panicked reason => { responses := [], outcome := .panicked reason }
    | .returned response => PostProcess.errorPart [.json StatusOK response] err
  else
    PostProcess.errorPart [] err

/-- A well-formed response struct: `Code`, `Msg` and one tagged field. -/
def sampleResp : GoValue :=
  .ptrToStruct
    [ { Name := "Code", typeName := "int64", jsonTag := "code", exported := true, value := .int 0 },
      { Name := "Msg", typeName := "string", jsonTag := "msg", exported := true,
        value := .string "ok" },
      { Name := "Token", typeName := "string", jsonTag := "token", exported := true,
        value := .string "t1" } ]

/-! # Theorems -/

/-! ### Lemmas on `classifyErr` -/

theorem classifyErr_tolerable (ws : WSClient) (code : Int) (text : String)
    (h : code = 1000 ∨ code = 1001 ∨ code = 1005) :
    ws.classifyErr (some (.closeError code text)) =
      (some .normalCloseErr, { ws with closed := true }) := by
  rcases h with h | h | h <;> subst h <;> rfl

theorem classifyErr_unexpected (ws : WSClient) (code : Int) (text : String)
    (h : code ≠ 1000 ∧ code ≠ 1001 ∧ code ≠ 1005) :
    ws.classifyErr (some (.closeError code text)) =
      (some .abnormalCloseErr,
        { ws with
          log := ws.log ++ [LogEntry.error "[WSClient] close error" (some (.closeError code text))]
          closed := true }) := by
  obtain ⟨h0, h1, h5⟩ := h
  simp [WSClient.classifyErr, IsCloseError, IsUnexpectedCloseError, CloseNormalClosure,
    CloseGoingAway, CloseNoStatusReceived, h0, h1, h5]

theorem classifyErr_passthrough (ws : WSClient) (e : Error)
    (h : ∀ code text, e ≠ .closeError code text) :
    ws.classifyErr (some e) = (some e, ws) := by
  cases e with
  | closeError code text => exact absurd rfl (h code text)
  | _ => rfl

theorem newErrorEntries_same_log (ws ws1 : WSClient) (h : ws1.log = ws.log) :
    newErrorEntries ws ws1 = [] := by
  simp [newErrorEntries, h]

theorem newErrorEntries_one (ws ws1 : WSClient) (entry : LogEntry)
    (h : ws1.log = ws.log ++ [entry]) (he : entry.isError = true) :
    newErrorEntries ws ws1 = [entry] := by
  simp [newErrorEntries, h, he]

/-! ### The websocket client -/

/-- C1: for every client and every close error with code 1000, 1001 or 1005,
`classifyErr` returns the sentinel `NormalCloseErr`, leaves the client closed
and appends no error-level log entry; `Read`, `ReadJSON`, `Write` and
`WriteJSON` do the same when the transport answers with that error. -/
theorem C1_tolerable_close (ws : WSClient) (code : Int) (text : String) (mt : Int)
    (data : List Nat) (h : code = 1000 ∨ code = 1001 ∨ code = 1005) :
    ((ws.classifyErr (some (.closeError code text))).1 = some .normalCloseErr ∧
      (ws.classifyErr (some (.closeError code text))).2.IsClosed = true ∧
      newErrorEntries ws (ws.classifyErr (some (.closeError code text))).2 = []) ∧
    (ws.conn.readMessage.2.2 = some (.closeError code text) →
      ws.Read.1.2.2 = some .normalCloseErr ∧ ws.Read.2.IsClosed = true ∧
      newErrorEntries ws ws.Read.2 = []) ∧
    (ws.conn.readJSON = some (.closeError code text) →
      ws.ReadJSON.1 = some .normalCloseErr ∧ ws.ReadJSON.2.IsClosed = true ∧
      newErrorEntries ws ws.ReadJSON.2 = []) ∧
    (ws.conn.writeMessage mt data = some (.closeError code text) →
      (ws.Write mt data).1 = some .normalCloseErr ∧ (ws.Write mt data).2.IsClosed = true ∧
      newErrorEntries ws (ws.Write mt data).2 = []) ∧
    (ws.conn.writeJSON = some (.closeError code text) →
      ws.WriteJSON.1 = some .normalCloseErr ∧ ws.WriteJSON.2.IsClosed = true ∧
      newErrorEntries ws ws.WriteJSON.2 = []) := by
  refine ⟨?_, ?_, ?_, ?_, ?_⟩
  · rw [classifyErr_tolerable ws code text h]
    exact ⟨rfl, rfl, newErrorEntries_same_log _ _ rfl⟩
  · intro hr
    have hc := classifyErr_tolerable
      { ws with calls := ws.calls ++ [ConnCall.readMessage] } code text h
    simp only [WSClient.Read, hr, hc]
    exact ⟨trivial, rfl, newErrorEntries_same_log _ _ rfl⟩
  · intro hr
    have hc := classifyErr_tolerable
      { ws with calls := ws.calls ++ [ConnCall.readJSON] } code text h
    simp only [WSClient.ReadJSON, hr, hc]
    exact ⟨trivial, rfl, newErrorEntries_same_log _ _ rfl⟩
  · intro hr
    have hc := classifyErr_tolerable
      { ws with calls := ws.calls ++ [ConnCall.writeMessage mt data] } code text h
    simp only [WSClient.Write, hr, hc]
    exact ⟨trivial, rfl, newErrorEntries_same_log _ _ rfl⟩
  · intro hr
    have hc := classifyErr_tolerable
      { ws with calls := ws.calls ++ [ConnCall.writeJSON] } code text h
    simp only [WSClient.WriteJSON, hr, hc]
    exact ⟨trivial, rfl, newErrorEntries_same_log _ _ rfl⟩

/-- Witness of C1: an open client whose peer closed with code 1001. -/
theorem C1_tolerable_close_witness :
    ((1001 : Int) = 1000 ∨ (1001 : Int) = 1001 ∨ (1001 : Int) = 1005) ∧
    (closingConn 1001 "bye").readMessage.2.2 = some (.closeError 1001 "bye") ∧
    (NewWSClient (closingConn 1001 "bye")).Read.1.2.2 = some .normalCloseErr ∧
    (NewWSClient (closingConn 1001 "bye")).Read.2.IsClosed = true ∧
    newErrorEntries (NewWSClient (closingConn 1001 "bye"))
      (NewWSClient (closingConn 1001 "bye")).Read.2 = [] :=
  ⟨by decide, rfl,
    (C1_tolerable_close (NewWSClient (closingConn 1001 "bye")) 1001 "bye" TextMessage []
      (by decide)).2.1 rfl⟩

/-- The close codes the comment at the head of helper.go lists as abnormal. -/
theorem abnormal_code_not_tolerable (code : Int)
    (h : code ∈ [1002, 1003, 1006, 1007, 1008, 1009, 1010, 1011, 1012, 1013, 1015]) :
    code ≠ 1000 ∧ code ≠ 1001 ∧ code ≠ 1005 := by
  simp only [List.mem_cons, List.mem_singleton, List.not_mem_nil, or_false] at h
  omega

/-- C2: for every client and every close error with one of the codes 1002,
1003, 1006, 1007, 1008, 1009, 1010, 1011, 1012, 1013, 1015, `classifyErr`
returns the sentinel `AbnormalCloseErr`, leaves the client closed and appends
exactly one error-level log entry, which carries the underlying error; `Read`,
`ReadJSON`, `Write` and `WriteJSON` do the same when the transport answers with
that error. -/
theorem C2_abnormal_close (ws : WSClient) (code : Int) (text : String) (mt : Int)
    (data : List Nat)
    (h : code ∈ [1002, 1003, 1006, 1007, 1008, 1009, 1010, 1011, 1012, 1013, 1015]) :
    ((ws.classifyErr (some (.closeError code text))).1 = some .abnormalCloseErr ∧
      (ws.classifyErr (some (.closeError code text))).2.IsClosed = true ∧
      newErrorEntries ws (ws.classifyErr (some (.closeError code text))).2 =
        [LogEntry.error "[WSClient] close error" (some (.closeError code text))]) ∧
    (ws.conn.readMessage.2.2 = some (.closeError code text) →
      ws.Read.1.2.2 = some .abnormalCloseErr ∧ ws.Read.2.IsClosed = true ∧
      newErrorEntries ws ws.Read.2 =
        [LogEntry.error "[WSClient] close error" (some (.closeError code text))]) ∧
    (ws.conn.readJSON = some (.closeError code text) →
      ws.ReadJSON.1 = some .abnormalCloseErr ∧ ws.ReadJSON.2.IsClosed = true ∧
      newErrorEntries ws ws.ReadJSON.2 =
        [LogEntry.error "[WSClient] close error" (some (.closeError code text))]) ∧
    (ws.conn.writeMessage mt data = some (.closeError code text) →
      (ws.Write mt data).1 = some .abnormalCloseErr ∧ (ws.Write mt data).2.IsClosed = true ∧
      newErrorEntries ws (ws.Write mt data).2 =
        [LogEntry.error "[WSClient] close error" (some (.closeError code text))]) ∧
    (ws.conn.writeJSON = some (.closeError code text) →
      ws.WriteJSON.1 = some .abnormalCloseErr ∧ ws.WriteJSON.2.IsClosed = true ∧
      newErrorEntries ws ws.WriteJSON.2 =
        [LogEntry.error "[WSClient] close error" (some (.closeError code text))]) := by
  have hn := abnormal_code_not_tolerable code h
  refine ⟨?_, ?_, ?_, ?_, ?_⟩
  · rw [classifyErr_unexpected ws code text hn]
    exact ⟨rfl, rfl, newErrorEntries_one _ _ _ rfl rfl⟩
  · intro hr
    have hc := classifyErr_unexpected
      { ws with calls := ws.calls ++ [ConnCall.readMessage] } code text hn
    simp only [WSClient.Read, hr, hc]
    exact ⟨trivial, rfl, newErrorEntries_one _ _ _ rfl rfl⟩
  · intro hr
    have hc := classifyErr_unexpected
      { ws with calls := ws.calls ++ [ConnCall.readJSON] } code text hn
    simp only [WSClient.ReadJSON, hr, hc]
    exact ⟨trivial, rfl, newErrorEntries_one _ _ _ rfl rfl⟩
  · intro hr
    have hc := classifyErr_unexpected
      { ws with calls := ws.calls ++ [ConnCall.writeMessage mt data] } code text hn
    simp only [WSClient.Write, hr, hc]
    exact ⟨trivial, rfl, newErrorEntries_one _ _ _ rfl rfl⟩
  · intro hr
    have hc := classifyErr_unexpected
      { ws with calls := ws.calls ++ [ConnCall.writeJSON] } code text hn
    simp only [WSClient.WriteJSON, hr, hc]
    exact ⟨trivial, rfl, newErrorEntries_one _ _ _ rfl rfl⟩

/-- Witness of C2: an open client whose peer closed with code 1006. -/
theorem C2_abnormal_close_witness :
    (1006 : Int) ∈ [1002, 1003, 1006, 1007, 1008, 1009, 1010, 1011, 1012, 1013, 1015] ∧
    (closingConn 1006 "").writeJSON = some (.closeError 1006 "") ∧
    (NewWSClient (closingConn 1006 "")).WriteJSON.1 = some .abnormalCloseErr ∧
    (NewWSClient (closingConn 1006 "")).WriteJSON.2.IsClosed = true ∧
    newErrorEntries (NewWSClient (closingConn 1006 ""))
      (NewWSClient (closingConn 1006 "")).WriteJSON.2 =
        [LogEntry.error "[WSClient] close error" (some (.closeError 1006 ""))] :=
  ⟨by decide, rfl,
    (C2_abnormal_close (NewWSClient (closingConn 1006 "")) 1006 "" TextMessage []
      (by decide)).2.2.2.2 rfl⟩

/-- C3: `classifyErr(nil)` returns nil, and an error that is not a websocket
close error is returned as it is; in both cases the client is left exactly as
it was, so the closed flag keeps its value and nothing is logged. -/
theorem C3_passthrough (ws : WSClient) :
    ws.classifyErr none = (none, ws) ∧
    ∀ e : Error, (∀ code text, e ≠ .closeError code text) →
      ws.classifyErr (some e) = (some e, ws) ∧
      (ws.classifyErr (some e)).2.closed = ws.closed ∧
      (ws.classifyErr (some e)).2.log = ws.log :=
  ⟨rfl, fun e he => by rw [classifyErr_passthrough ws e he]; exact ⟨rfl, rfl, rfl⟩⟩

/-- Witness of C3: a plain I/O failure on an open client. -/
theorem C3_passthrough_witness :
    (∀ code text, Error.errorString "unexpected EOF" ≠ .closeError code text) ∧
    (NewWSClient healthyConn).classifyErr (some (.errorString "unexpected EOF")) =
      (some (.errorString "unexpected EOF"), NewWSClient healthyConn) :=
  ⟨fun _ _ hne => Error.noConfusion hne,
    ((C3_passthrough (NewWSClient healthyConn)).2 (.errorString "unexpected EOF")
      (fun _ _ hne => Error.noConfusion hne)).1⟩

/-- C4: on a client whose closed flag is set, `Close` returns nil and leaves
the client as it was, so it makes no transport call; the flag may have been set
by a close-error classification or by an earlier `Close`.  Of two consecutive
`Close` calls on an open client the first sends the close frame and closes the
connection, and the second makes no call. -/
theorem C4_close_idempotent (ws : WSClient) :
    (ws.closed = true → ws.Close = (none, ws) ∧ newCalls ws ws.Close.2 = []) ∧
    (∀ code text, (ws.classifyErr (some (.closeError code text))).2.Close =
      (none, (ws.classifyErr (some (.closeError code text))).2)) ∧
    (ws.closed = false →
      newCalls ws ws.Close.2 =
        [ConnCall.writeControl CloseMessage NormalCLoseMsg, ConnCall.close] ∧
      ws.Close.2.closed = true ∧
      ws.Close.2.Close = (none, ws.Close.2) ∧
      newCalls ws.Close.2 ws.Close.2.Close.2 = []) := by
  refine ⟨?_, ?_, ?_⟩
  · intro hc
    have : ws.Close = (none, ws) := by simp [WSClient.Close, hc]
    rw [this]
    exact ⟨rfl, by simp [newCalls]⟩
  · intro code text
    by_cases h : code = 1000 ∨ code = 1001 ∨ code = 1005
    · rw [classifyErr_tolerable ws code text h]; rfl
    · rw [classifyErr_unexpected ws code text (by omega)]; rfl
  · intro hc
    have h1 : ws.Close.2.closed = true := by
      simp [WSClient.Close, hc]
    have h2 : ws.Close.2.Close = (none, ws.Close.2) := by
      generalize ws.Close.2 = w at h1
      simp [WSClient.Close, h1]
    refine ⟨?_, h1, h2, ?_⟩
    · simp [WSClient.Close, hc, newCalls]
    · rw [h2]; simp [newCalls]

/-- Witness of C4: an open client on a healthy connection, closed twice. -/
theorem C4_close_idempotent_witness :
    (NewWSClient healthyConn).closed = false ∧
    newCalls (NewWSClient healthyConn) (NewWSClient healthyConn).Close.2 =
      [ConnCall.writeControl CloseMessage NormalCLoseMsg, ConnCall.close] ∧
    (NewWSClient healthyConn).Close.2.Close.1 = none ∧
    newCalls (NewWSClient healthyConn).Close.2 (NewWSClient healthyConn).Close.2.Close.2 = [] :=
  ⟨rfl, ((C4_close_idempotent (NewWSClient healthyConn)).2.2 rfl).1,
    congrArg Prod.fst ((C4_close_idempotent (NewWSClient healthyConn)).2.2 rfl).2.2.1,
    ((C4_close_idempotent (NewWSClient healthyConn)).2.2 rfl).2.2.2⟩

/-- C5 (the code at the failing input): when the control write of `WritePing`
answers with a close error of code 1000 on an open client, `WritePing` returns
that raw close error, not the sentinel `NormalCloseErr`, and the client stays
open; `Write` on the same client and answer returns the sentinel and closes. -/
theorem C5_WritePing_not_classified :
    (NewWSClient (closingConn 1000 "bye")).WritePing.1 = some (.closeError 1000 "bye") ∧
    (NewWSClient (closingConn 1000 "bye")).WritePing.1 ≠ some .normalCloseErr ∧
    (NewWSClient (closingConn 1000 "bye")).WritePing.2.IsClosed = false ∧
    ((NewWSClient (closingConn 1000 "bye")).Write PingMessage []).1 = some .normalCloseErr ∧
    ((NewWSClient (closingConn 1000 "bye")).Write PingMessage []).2.IsClosed = true :=
  ⟨rfl, by decide, rfl, rfl, rfl⟩

/-- Method `WritePing` never changes the closed flag and never classifies: it hands
back whatever the control write answered. -/
theorem WritePing_raw (ws : WSClient) :
    ws.WritePing.1 = ws.conn.writeControl PingMessage [] ∧
    ws.WritePing.2.closed = ws.closed ∧ ws.WritePing.2.log = ws.log :=
  ⟨rfl, rfl, rfl⟩

/-! ### util -/

theorem or_shift_eq_add (b0 b1 b2 b3 : Nat) (h1 : b1 < 256) (h2 : b2 < 256) (h3 : b3 < 256) :
    b3 ||| b2 <<< 8 ||| b1 <<< 16 ||| b0 <<< 24 =
      b0 * 2 ^ 24 + b1 * 2 ^ 16 + b2 * 2 ^ 8 + b3 := by
  have sh : ∀ a i : Nat, a <<< i = 2 ^ i * a := fun a i => by
    rw [Nat.shiftLeft_eq, Nat.mul_comm]
  have e1 : b3 ||| b2 <<< 8 = b2 <<< 8 + b3 := by
    rw [Nat.lor_comm, sh]
    exact (Nat.mul_add_lt_is_or (by omega) b2).symm
  have l1 : b2 <<< 8 + b3 < 2 ^ 16 := by
    rw [Nat.shiftLeft_eq]; omega
  have e2 : (b2 <<< 8 + b3) ||| b1 <<< 16 = b1 <<< 16 + (b2 <<< 8 + b3) := by
    rw [Nat.lor_comm, sh b1]
    exact (Nat.mul_add_lt_is_or l1 b1).symm
  have l2 : b1 <<< 16 + (b2 <<< 8 + b3) < 2 ^ 24 := by
    rw [Nat.shiftLeft_eq, Nat.shiftLeft_eq]; omega
  have e3 : (b1 <<< 16 + (b2 <<< 8 + b3)) ||| b0 <<< 24 =
      b0 <<< 24 + (b1 <<< 16 + (b2 <<< 8 + b3)) := by
    rw [Nat.lor_comm, sh b0]
    exact (Nat.mul_add_lt_is_or l2 b0).symm
  rw [e1, e2, e3]
  simp only [Nat.shiftLeft_eq]
  omega

theorem Uint32_PutUint32 (v : Nat) (hv : v < 2 ^ 32) :
    Uint32 (byte (v >>> 24)) (byte (v >>> 16)) (byte (v >>> 8)) (byte v) = v := by
  have h1 : byte (v >>> 16) < 256 := by unfold byte; omega
  have h2 : byte (v >>> 8) < 256 := by unfold byte; omega
  have h3 : byte v < 256 := by unfold byte; omega
  unfold Uint32
  rw [or_shift_eq_add _ _ _ _ h1 h2 h3]
  simp only [byte, Nat.shiftRight_eq_div_pow]
  omega

theorem uint32_lt (n : Int) : uint32 n < 2 ^ 32 := by
  unfold uint32
  omega

theorem uint32_cast (n : Int) : ((uint32 n : Nat) : Int) = n % 2 ^ 32 := by
  unfold uint32
  omega

theorem bigEndianValue_PutUint32 (v : Nat) (hv : v < 2 ^ 32) :
    bigEndianValue (PutUint32 v) = v := by
  simp only [bigEndianValue, PutUint32, List.foldl, byte, Nat.shiftRight_eq_div_pow]
  omega

theorem BytesToInt_IntToBytes (n : Int) :
    BytesToInt (IntToBytes n) = (n % 2 ^ 32, none) := by
  have hlt := uint32_lt n
  have hc := uint32_cast n
  have hu := Uint32_PutUint32 (uint32 n) hlt
  simp only [BytesToInt, IntToBytes, PutUint32, len, List.length_cons, List.length_nil]
  simp only [hu, intOfUint32]
  simp
  omega

theorem BytesToInt_error_iff (data : Bytes) : (BytesToInt data).2 ≠ none ↔ len data ≠ 4 := by
  unfold BytesToInt
  by_cases h : len data ≠ 4 ∨ data = none
  · rw [if_pos h]
    have : len data ≠ 4 := by
      rcases h with h | h
      · exact h
      · subst h; decide
    simp [this]
  · rw [if_neg h]
    have h4 : len data = 4 := by
      by_contra hne
      exact h (Or.inl hne)
    match data, h4 with
    | some [b0, b1, b2, b3], _ => simp [len]

/-- C10: with `int` a 64-bit signed integer, `IntToBytes(n)` is the 4-byte
big-endian encoding of `n mod 2^32`; `BytesToInt(IntToBytes(n))` returns
`(n mod 2^32, nil)`, which is `n` exactly when `0 ≤ n < 2^32`; and `BytesToInt`
returns an error exactly when its input does not have length 4. -/
theorem C10_int_bytes (n : Int) (hn : -2 ^ 63 ≤ n ∧ n < 2 ^ 63) :
    (∃ bs, IntToBytes n = some bs ∧ bs.length = 4 ∧ (∀ b ∈ bs, b < 256) ∧
      (bigEndianValue bs : Int) = n % 2 ^ 32) ∧
    BytesToInt (IntToBytes n) = (n % 2 ^ 32, none) ∧
    (BytesToInt (IntToBytes n) = (n, none) ↔ 0 ≤ n ∧ n < 2 ^ 32) ∧
    (∀ data : Bytes, (BytesToInt data).2 ≠ none ↔ len data ≠ 4) := by
  refine ⟨⟨PutUint32 (uint32 n), rfl, rfl, ?_, ?_⟩, BytesToInt_IntToBytes n, ?_,
    BytesToInt_error_iff⟩
  · intro b hb
    simp only [PutUint32, byte, List.mem_cons, List.mem_singleton, List.not_mem_nil,
      or_false] at hb
    omega
  · rw [bigEndianValue_PutUint32 _ (uint32_lt n), uint32_cast]
  · rw [BytesToInt_IntToBytes]
    constructor
    · intro h
      have h1 : n % 2 ^ 32 = n := congrArg Prod.fst h
      omega
    · intro h
      have h1 : n % 2 ^ 32 = n := by omega
      rw [h1]

/-- Witness of C10: the int `-1` is encoded as four bytes `255` and read back
as `4294967295`. -/
theorem C10_int_bytes_witness :
    (-2 ^ 63 ≤ (-1 : Int) ∧ (-1 : Int) < 2 ^ 63) ∧
    BytesToInt (IntToBytes (-1)) = ((-1 : Int) % 2 ^ 32, none) :=
  ⟨by decide, (C10_int_bytes (-1) (by decide)).2.1⟩

/-! ### errorx -/

/-- An `Errorx` held by value comes back from `EndE` as it is, also through
wrapping errors. -/
theorem EndE_of_value (e : Errorx) :
    EndE (some (.errorxVal e)) =
      .returned (.errorxVal e, [LogEntry.error "error: " (some (.errorxVal e))]) := rfl

/-- An `Errorx` held by pointer does not match in `errors.As`: `EndE` answers
with code 999 and the printed form of the error as message. -/
theorem EndE_of_pointer (e : Errorx) :
    EndE (some (.errorxPtr e)) =
      .returned (.errorxPtr { Code := unknowCode, Msg := e.Error },
        [LogEntry.error "error: " (some (.errorxPtr e))]) := rfl

/-- C9 (the code at the failing input): `EndE(EndX(nil, 42, "boom"))` is not an
`Errorx` with code 42 and message `boom` but one with code 999 and message
`code=42, msg=boom`; the same happens to what `EndM` returns, and `EndE`
applied to its own result on a plain error changes the message again. -/
theorem C9_EndE_pointer_not_preserved :
    EndE (some (EndX none 42 "boom").1) =
      .returned (.errorxPtr { Code := 999, Msg := "code=42, msg=boom" },
        [LogEntry.error "error: " (some (.errorxPtr { Code := 42, Msg := "boom" }))]) ∧
    (EndX none 42 "boom").1.asErrorx? = some { Code := 42, Msg := "boom" } ∧
    EndE (some (EndM none "boom").1) =
      .returned (.errorxPtr { Code := 999, Msg := "code=999, msg=boom" },
        [LogEntry.error "error: " (some (.errorxPtr { Code := 999, Msg := "boom" }))]) ∧
    EndE (some (.errorString "eof")) =
      .returned (.errorxPtr { Code := 999, Msg := "eof" },
        [LogEntry.error "error: " (some (.errorString "eof"))]) ∧
    EndE (some (.errorxPtr { Code := 999, Msg := "eof" })) =
      .returned (.errorxPtr { Code := 999, Msg := "code=999, msg=eof" },
        [LogEntry.error "error: " (some (.errorxPtr { Code := 999, Msg := "eof" }))]) := by
  refine ⟨?_, rfl, ?_, rfl, ?_⟩ <;> decide

/-! ### httpx: post-processing -/

theorem errorPart_nil (written : List ResponseWrite) :
    PostProcess.errorPart written none =
      { responses := written, outcome := .panicked "nil pointer dereference" } := rfl

/-- C8 (the code on a nil error): for every `resp`, `PostProcess` with a nil
`err` does not complete normally: it panics, either inside `makeResponse` or,
after the 200 response is written, on `err.Error()` in the branch for ordinary
errors, which the missing `return` lets it reach.  On a well-formed response
struct the 200 JSON response is written and then the nil error is
dereferenced. -/
theorem C8_PostProcess_nil_err_panics :
    (∀ resp : GoValue, ∃ reason, (PostProcess resp none).outcome = .panicked reason) ∧
    (∀ (resp : GoValue) (response : Option ResponseMap),
      makeResponse resp = .returned response →
      PostProcess resp none =
        { responses := [.json StatusOK response],
          outcome := .panicked "nil pointer dereference" }) ∧
    PostProcess sampleResp none =
      { responses :=
          [.json 200 (some { code := 0, msg := "ok", data := some [("token", .string "t1")] })],
        outcome := .panicked "nil pointer dereference" } := by
  refine ⟨?_, ?_, by decide⟩
  · intro resp
    cases h : makeResponse resp with
    | returned response =>
      exact ⟨"nil pointer dereference", by simp [PostProcess, h, errorPart_nil]⟩
    | panicked reason => exact ⟨reason, by simp [PostProcess, h]⟩
  · intro resp response h
    simp [PostProcess, h, errorPart_nil]

/-! ### httpx: the streaming client -/

theorem Stream_of_response (c : HttpClient) (resp : Response) (h : c.doRequest = .ok resp) :
    c.Stream =
      if resp.StatusCode < 200 ∨ resp.StatusCode ≥ 300 then
        { reader := none, err := some (Errorf (statusErrMsg resp.StatusCode resp.bodyText)),
          resp := some
            { resp with bodyCalls := resp.bodyCalls ++ [BodyCall.readAll] ++ [BodyCall.close] } }
      else
        { reader := some { resp := resp }, err := none, resp := some resp } := by
  simp only [HttpClient.Stream, h, StreamReader.ReadAll, StreamReader.Close]

/-- C7: when the request was delivered and answered, `Stream` returns a reader
and a nil error exactly when `200 ≤ status < 300`; then the reader wraps the
response as it was received, no call having been made on its body; otherwise
no reader is handed back, the error is not nil, and the calls made on the body
are one `ReadAll` followed by one `Close`. -/
theorem C7_stream_reader_iff (c : HttpClient) (resp : Response)
    (h : c.doRequest = .ok resp) :
    ((c.Stream.reader ≠ none ∧ c.Stream.err = none) ↔
      (200 ≤ resp.StatusCode ∧ resp.StatusCode < 300)) ∧
    ((200 ≤ resp.StatusCode ∧ resp.StatusCode < 300) →
      c.Stream.reader = some { resp := resp } ∧ c.Stream.err = none ∧
      c.Stream.resp = some resp) ∧
    (¬ (200 ≤ resp.StatusCode ∧ resp.StatusCode < 300) →
      c.Stream.reader = none ∧ c.Stream.err ≠ none ∧
      ∃ left, c.Stream.resp = some left ∧
        left.bodyCalls = resp.bodyCalls ++ [BodyCall.readAll, BodyCall.close]) := by
  rw [Stream_of_response c resp h]
  by_cases hs : resp.StatusCode < 200 ∨ resp.StatusCode ≥ 300
  · have hn : ¬ (200 ≤ resp.StatusCode ∧ resp.StatusCode < 300) := by omega
    rw [if_pos hs]
    refine ⟨⟨fun hx => absurd rfl hx.1, fun hx => absurd hx hn⟩, fun hx => absurd hx hn,
      fun _ => ⟨rfl, by simp, _, rfl, by simp⟩⟩
  · have hp : 200 ≤ resp.StatusCode ∧ resp.StatusCode < 300 := by omega
    rw [if_neg hs]
    exact ⟨⟨fun _ => hp, fun _ => ⟨by simp, rfl⟩⟩, fun _ => ⟨rfl, rfl, rfl⟩,
      fun hx => absurd hp hx⟩

/-- Witness of C7: a 200 response gives a reader over the untouched body. -/
theorem C7_stream_reader_iff_witness :
    (answering (freshResponse 200 "data")).doRequest = .ok (freshResponse 200 "data") ∧
    (answering (freshResponse 200 "data")).Stream.reader =
      some { resp := freshResponse 200 "data" } ∧
    (answering (freshResponse 200 "data")).Stream.err = none ∧
    (answering (freshResponse 200 "data")).Stream.resp = some (freshResponse 200 "data") :=
  ⟨rfl, (C7_stream_reader_iff (answering (freshResponse 200 "data"))
    (freshResponse 200 "data") rfl).2.1 (by decide)⟩

/-- C6 (the code at the failing input): for status 404 and body `50%d` the
error text of `Stream` is `unexpected status code: 404, response body:
50%!d(MISSING)`: it contains `404` but not the body, which `fmt.Errorf` has
read as a format string; no reader is returned.  For the body
`{"error":"not found"}`, which has no percent sign, status and body are both in
the text. -/
theorem C6_stream_error_percent_body :
    (answering (freshResponse 404 "50%d")).Stream.reader = none ∧
    (answering (freshResponse 404 "50%d")).Stream.err =
      some (.errorString "unexpected status code: 404, response body: 50%!d(MISSING)") ∧
    containsText "unexpected status code: 404, response body: 50%!d(MISSING)" "404" = true ∧
    containsText "unexpected status code: 404, response body: 50%!d(MISSING)" "50%d" = false ∧
    (answering (freshResponse 404 "\x7b\"error\":\"not found\"\x7d")).Stream.err =
      some (.errorString
        "unexpected status code: 404, response body: \x7b\"error\":\"not found\"\x7d") := by
  refine ⟨rfl, ?_, ?_, ?_, ?_⟩ <;> decide

/-! ### Texts without a percent sign pass through `fmt.Errorf` unchanged -/

theorem digitChar_ne_percent (d : Nat) (hd : d < 10) : Nat.digitChar d ≠ '%' := by
  interval_cases d <;> decide

theorem toDigitsCore_no_percent (fuel : Nat) :
    ∀ (n : Nat) (ds : List Char), (∀ c ∈ ds, c ≠ '%') →
      ∀ c ∈ Nat.toDigitsCore 10 fuel n ds, c ≠ '%' := by
  induction fuel with
  | zero => intro n ds hds c hc; exact hds c (by simpa [Nat.toDigitsCore] using hc)
  | succ fuel ih =>
    intro n ds hds c hc
    have hcons : ∀ x ∈ Nat.digitChar (n % 10) :: ds, x ≠ '%' := by
      intro x hx
      rcases List.mem_cons.mp hx with hx | hx
      · rw [hx]; exact digitChar_ne_percent _ (Nat.mod_lt _ (by decide))
      · exact hds x hx
    simp only [Nat.toDigitsCore] at hc
    split at hc
    · exact hcons c hc
    · exact ih _ _ hcons c hc

theorem repr_no_percent (k : Nat) : ∀ c ∈ (Nat.repr k).data, c ≠ '%' := by
  intro c hc
  have hc1 : c ∈ Nat.toDigitsCore 10 (k + 1) k [] := by
    simpa [Nat.repr, Nat.toDigits, List.asString] using hc
  exact toDigitsCore_no_percent _ _ _ (fun x hx => absurd hx (List.not_mem_nil x)) c hc1

theorem itoa_no_percent (n : Int) : ∀ c ∈ (itoa n).data, c ≠ '%' := by
  intro c hc
  cases n with
  | ofNat k => exact repr_no_percent k c hc
  | negSucc k =>
    simp only [itoa, String.data_append, List.mem_append] at hc
    rcases hc with hc | hc
    · have : c = '-' := by simpa using hc
      rw [this]; decide
    · exact repr_no_percent _ c hc

theorem doPrintf_no_percent (fuel : Nat) (s : List Char) (h : ∀ c ∈ s, c ≠ '%') :
    doPrintf (fuel + 1) s = s := by
  have hspan : s.span (fun c => c != '%') = (s, []) := by
    rw [List.span_eq_take_drop]
    have hall : ∀ c ∈ s, (fun c => c != '%') c = true := by
      intro c hc
      simpa using h c hc
    rw [List.takeWhile_eq_self_iff.mpr hall, List.dropWhile_eq_nil_iff.mpr hall]
  simp only [doPrintf, hspan]

theorem containsText_of_append (a b c : String) : containsText (a ++ b ++ c) b = true := by
  simp only [containsText, List.any_eq_true, List.mem_tails, String.data_append]
  refine ⟨b.data ++ c.data, ?_, ?_⟩
  · rw [List.append_assoc]
    exact List.suffix_append _ _
  · rw [List.isPrefixOf_iff_prefix]
    exact List.prefix_append _ _

/-- For a body without a percent sign the error of `Stream` on a status outside
`[200, 300)` has the text `statusErrMsg status body`, which contains the decimal
status and the body verbatim; no reader is returned. -/
theorem Stream_error_verbatim_of_no_percent (c : HttpClient) (resp : Response)
    (h : c.doRequest = .ok resp)
    (hs : ¬ (200 ≤ resp.StatusCode ∧ resp.StatusCode < 300))
    (hb : ∀ ch ∈ resp.bodyText.data, ch ≠ '%') :
    c.Stream.reader = none ∧
    c.Stream.err = some (.errorString (statusErrMsg resp.StatusCode resp.bodyText)) ∧
    containsText (statusErrMsg resp.StatusCode resp.bodyText) (itoa resp.StatusCode) = true ∧
    containsText (statusErrMsg resp.StatusCode resp.bodyText) resp.bodyText = true := by
  have hcond : resp.StatusCode < 200 ∨ resp.StatusCode ≥ 300 := by omega
  rw [Stream_of_response c resp h, if_pos hcond]
  have hmsg : ∀ ch ∈ (statusErrMsg resp.StatusCode resp.bodyText).data, ch ≠ '%' := by
    intro ch hch
    simp only [statusErrMsg, String.data_append, List.mem_append] at hch
    rcases hch with ((hch | hch) | hch) | hch
    · intro he; rw [he] at hch; revert hch; decide
    · exact itoa_no_percent _ ch hch
    · intro he; rw [he] at hch; revert hch; decide
    · exact hb ch hch
  refine ⟨rfl, ?_, ?_, ?_⟩
  · simp only [Errorf, String.length]
    rw [doPrintf_no_percent _ _ hmsg]
  · have := containsText_of_append "unexpected status code: " (itoa resp.StatusCode)
      (", response body: " ++ resp.bodyText)
    simpa [statusErrMsg, String.append_assoc] using this
  · have := containsText_of_append
      ("unexpected status code: " ++ itoa resp.StatusCode ++ ", response body: ")
      resp.bodyText ""
    simpa [statusErrMsg] using this

/-! ### The fuel of `doPrintf` is enough -/

theorem skipFlags_length (s : List Char) : (skipFlags s).length ≤ s.length := by
  induction s with
  | nil => simp [skipFlags]
  | cons c cs ih =>
    simp only [skipFlags]
    split
    · exact Nat.le_succ_of_le ih
    · exact Nat.le_refl _

theorem parsenumLoop_length (s : List Char) :
    ∀ (num : Nat) (isnum : Bool), (parsenumLoop num isnum s).2.2.length ≤ s.length := by
  induction s with
  | nil => intro num isnum; simp [parsenumLoop]
  | cons c cs ih =>
    intro num isnum
    simp only [parsenumLoop]
    split
    · split
      · simp
      · exact Nat.le_succ_of_le (ih _ _)
    · exact Nat.le_refl _

theorem argNumber_length (s : List Char) : (argNumber s).1.length ≤ s.length := by
  unfold argNumber
  split
  · simp only [List.length_drop]
    omega
  · exact Nat.le_refl _

theorem widthStep_length (st : VerbState) : (widthStep st).rest.length ≤ st.rest.length := by
  unfold widthStep
  split
  · rename_i cs heq
    simp [heq]
  · exact parsenumLoop_length _ _ _

theorem precisionStep_length (st : VerbState) :
    (precisionStep st).rest.length ≤ st.rest.length := by
  unfold precisionStep
  split
  · rename_i cs heq
    have h1 := argNumber_length cs
    rw [heq]
    simp only [List.length_cons]
    split
    · rename_i cs2 heq2
      rw [heq2] at h1
      simp only [List.length_cons] at h1 ⊢
      omega
    · have h2 := parsenumLoop_length (argNumber cs).1 0 false
      simp only [parsenum]
      omega
  · exact Nat.le_refl _

theorem indexStep_length (st : VerbState) : (indexStep st).rest.length ≤ st.rest.length := by
  unfold indexStep
  split
  · exact Nat.le_refl _
  · exact argNumber_length _

theorem verbStep_length (st : VerbState) : (verbStep st).2.length ≤ st.rest.length := by
  unfold verbStep
  split
  · simp
  · rename_i verb cs heq
    rw [heq]
    simp only [List.length_cons]
    split
    · simp
    · split <;> simp

theorem formatVerb_length (s : List Char) : (formatVerb s).2.length ≤ s.length := by
  unfold formatVerb
  have h1 := skipFlags_length s
  have h2 := argNumber_length (skipFlags s)
  have h3 := widthStep_length
    { out := [], rest := (argNumber (skipFlags s)).1,
      goodArgNum := !(argNumber (skipFlags s)).2.2, afterIndex := (argNumber (skipFlags s)).2.1 }
  have h4 := precisionStep_length (widthStep
    { out := [], rest := (argNumber (skipFlags s)).1,
      goodArgNum := !(argNumber (skipFlags s)).2.2, afterIndex := (argNumber (skipFlags s)).2.1 })
  have h5 := indexStep_length (precisionStep (widthStep
    { out := [], rest := (argNumber (skipFlags s)).1,
      goodArgNum := !(argNumber (skipFlags s)).2.2, afterIndex := (argNumber (skipFlags s)).2.1 }))
  have h6 := verbStep_length (indexStep (precisionStep (widthStep
    { out := [], rest := (argNumber (skipFlags s)).1,
      goodArgNum := !(argNumber (skipFlags s)).2.2, afterIndex := (argNumber (skipFlags s)).2.1 })))
  exact h6.trans (h5.trans (h4.trans (h3.trans (h2.trans h1))))

theorem span_rest_length (s text after : List Char) (x : Char)
    (h : s.span (fun c => c != '%') = (text, x :: after)) : after.length < s.length := by
  have h1 : s.dropWhile (fun c => c != '%') = x :: after := by
    rw [List.span_eq_take_drop] at h
    exact congrArg Prod.snd h
  have h2 := (List.dropWhile_suffix (fun c => c != '%') : s.dropWhile _ <:+ s).length_le
  rw [h1] at h2
  simp only [List.length_cons] at h2
  omega

/-- Any fuel above the length of the format gives the same text: the loop of
`doPrintf` never stops for want of fuel. -/
theorem doPrintf_fuel (f1 : Nat) :
    ∀ (f2 : Nat) (s : List Char), s.length < f1 → s.length < f2 →
      doPrintf f1 s = doPrintf f2 s := by
  induction f1 with
  | zero => intro f2 s h1; exact absurd h1 (Nat.not_lt_zero _)
  | succ k ih =>
    intro f2 s h1 h2
    cases f2 with
    | zero => exact absurd h2 (Nat.not_lt_zero _)
    | succ m =>
      simp only [doPrintf]
      split
      · rfl
      · rename_i text x after heq
        have h3 := span_rest_length s text after x heq
        have h4 := formatVerb_length after
        rw [ih m (formatVerb after).2 (by omega) (by omega)]

end PsychPkg


